import Mathlib

/-!
Shallow embedding of the VSM hysteresis-loop analysis engine
(src/analysis/calculations.py, src/analysis/file_io.py,
src/app/graph_manager.py), with theorems settling the frozen claims.

Conventions of the embedding:
* Python floats are modelled as exact rationals (ℚ); the numeric literals
  0.9 and 0.15 are taken as the exact rationals 9/10 and 3/20.
* A sample list `List (ℚ × ℚ)` is the zipped pair of the field column H and
  the moment column M of the pandas DataFrame, in row order.
* pandas DataFrames are modelled with a contiguous zero-based RangeIndex
  (no rows dropped by dropna), so an index label equals the row position.
* A Python call that raises is modelled by an `Option` result being `none`;
  printed warnings, where a claim mentions them, are modelled by an explicit
  warning list in the result.
-/

namespace VSM

/-- Sum of a list of rationals. -/
def listSum (l : List ℚ) : ℚ := l.foldl (fun a b => a + b) 0

/-- np.mean over exact rationals; callers guard against the empty list, for
which this total model returns 0. -/
def mean (l : List ℚ) : ℚ := listSum l / l.length

/-- np.max over a list, defaulting to 0 on the empty list (numpy raises there;
every use below is guarded by nonemptiness). -/
def listMax (l : List ℚ) : ℚ := l.max?.getD 0

/-- np.min over a list, defaulting to 0 on the empty list. -/
def listMin (l : List ℚ) : ℚ := l.min?.getD 0

/-- pandas Series.idxmin on a contiguous zero-based index: the position of the
first occurrence of the minimum value. -/
def idxmin (l : List ℚ) : Nat := l.findIdx (fun x => x == listMin l)

/-- pandas Series.idxmax on a contiguous zero-based index: the position of the
first occurrence of the maximum value. -/
def idxmax (l : List ℚ) : Nat := l.findIdx (fun x => x == listMax l)

/-- scipy.stats.linregress modelled over exact rationals: ordinary least
squares of the second component on the first. `none` models the raising
branches (fewer than two points, or all x identical, i.e. zero x-variance:
scipy raises ValueError there); otherwise `some (slope, r_squared)`, with
r = 0 when the y-variance is zero (scipy's `r_den == 0` branch). The
quantities below are the scaled covariance sums n·Σxy − Σx·Σy etc., which
give the same slope and r² as scipy's mean-centred ones. -/
def linregress (pts : List (ℚ × ℚ)) : Option (ℚ × ℚ) :=
  let n : ℚ := pts.length
  let sx := listSum (pts.map Prod.fst)
  let sy := listSum (pts.map Prod.snd)
  let sxx := listSum (pts.map (fun p => p.1 * p.1))
  let syy := listSum (pts.map (fun p => p.2 * p.2))
  let sxy := listSum (pts.map (fun p => p.1 * p.2))
  let ssxm := n * sxx - sx * sx
  let ssym := n * syy - sy * sy
  let ssxym := n * sxy - sx * sy
  if ssxm = 0 then none
  else
    some (ssxym / ssxm, if ssym = 0 then 0 else ssxym * ssxym / (ssxm * ssym))

/-- One insertion step of the sort modelling pandas sort_values(by="H"). -/
def insertByField (p : ℚ × ℚ) : List (ℚ × ℚ) → List (ℚ × ℚ)
  | [] => [p]
  | q :: qs => if p.1 ≤ q.1 then p :: q :: qs else q :: insertByField p qs

/-- pandas DataFrame.sort_values(by="H").reset_index(drop=True): the rows
reordered so the field column is ascending (sort_values' quicksort is
unstable, so any reordering with ascending fields is a faithful model; on
data already sorted by field this is the identity). -/
def sort_values : List (ℚ × ℚ) → List (ℚ × ℚ)
  | [] => []
  | p :: ps => insertByField p (sort_values ps)

/-- Segment size of find_demag_slope_auto: max(5, int(n_points * 0.15)),
with int(n * 0.15) modelled as ⌊3n/20⌋ (exact at every size instantiated in
this file). -/
def segmentSize (n : Nat) : Nat := max 5 (3 * n / 20)

/-- calculations.find_demag_slope_auto: sort the samples by field ascending,
take the trailing/leading segmentSize rows as positive/negative segments,
regress each side (a raising regression leaves that side's slope and r² at 0),
and return ((slope_pos + slope_neg) / 2, r2_pos, r2_neg). If
n < 2·segmentSize, return (0, 0, 0). -/
def find_demag_slope_auto (pts : List (ℚ × ℚ)) : ℚ × ℚ × ℚ :=
  let df := sort_values pts
  let n := df.length
  let seg := segmentSize n
  if n < seg * 2 then (0, 0, 0)
  else
    let pos := (linregress (df.drop (n - seg))).getD (0, 0)
    let neg := (linregress (df.take seg)).getD (0, 0)
    ((pos.1 + neg.1) / 2, pos.2, neg.2)

/-- Inclusive membership of a field value in a (lo, hi) window:
(H >= lo) & (H <= hi). -/
def inRange (r : ℚ × ℚ) (h : ℚ) : Bool := r.1 ≤ h && h ≤ r.2

/-- calculations.find_demag_slope_manual: regress over the samples whose field
lies in each inclusive window (only when the window holds at least 2 points;
a raising regression leaves that side at 0), then combine: average when both
slopes are nonzero, else the nonzero one, else (0, 0, 0). -/
def find_demag_slope_manual (pts : List (ℚ × ℚ)) (pos_range neg_range : ℚ × ℚ) :
    ℚ × ℚ × ℚ :=
  let posPts := pts.filter (fun p => inRange pos_range p.1)
  let pos := if 2 ≤ posPts.length then (linregress posPts).getD (0, 0) else (0, 0)
  let negPts := pts.filter (fun p => inRange neg_range p.1)
  let neg := if 2 ≤ negPts.length then (linregress negPts).getD (0, 0) else (0, 0)
  if pos.1 ≠ 0 ∧ neg.1 ≠ 0 then ((pos.1 + neg.1) / 2, pos.2, neg.2)
  else if pos.1 ≠ 0 then (pos.1, pos.2, neg.2)
  else if neg.1 ≠ 0 then (neg.1, pos.2, neg.2)
  else (0, 0, 0)

/-- Warnings printed by calculate_saturation_magnetization when a manual
window holds fewer than 2 points. -/
inductive MsWarning
  | posFew
  | negFew
deriving DecidableEq, Repr

/-- The {"avg", "pos", "neg"} result dictionary of
calculate_saturation_magnetization. -/
structure MsValues where
  avg : ℚ
  pos : ℚ
  neg : ℚ
deriving DecidableEq, Repr

/-- calculations.calculate_saturation_magnetization. The manual path runs iff
both windows are supplied (a supplied window is a 2-tuple, hence truthy in
Python). Each side's estimate is the mean moment over its set (absolute
values on the negative side), left at 0 when the set is empty; the combine
step averages two nonzero sides, else takes Ms_pos if nonzero, else Ms_neg.
`none` models the ValueError that np.max raises on the automatic path with an
empty sample list; the warning list records the fewer-than-2-points prints of
the manual path. -/
def calculate_saturation_magnetization (pts : List (ℚ × ℚ))
    (pos_range neg_range : Option (ℚ × ℚ)) : Option (MsValues × List MsWarning) :=
  match pos_range, neg_range with
  | some pr, some nr =>
    let posPts := pts.filter (fun p => inRange pr p.1)
    let negPts := pts.filter (fun p => inRange nr p.1)
    let warnings :=
      (if posPts.length < 2 then [MsWarning.posFew] else []) ++
      (if negPts.length < 2 then [MsWarning.negFew] else [])
    let msPos := if 0 < posPts.length then mean (posPts.map Prod.snd) else 0
    let msNeg := if 0 < negPts.length then mean (negPts.map (fun p => |p.2|)) else 0
    let msAvg := if msPos ≠ 0 ∧ msNeg ≠ 0 then (msPos + msNeg) / 2
                 else if msPos ≠ 0 then msPos else msNeg
    some (⟨msAvg, msPos, msNeg⟩, warnings)
  | _, _ =>
    match pts with
    | [] => none
    | _ :: _ =>
      let H := pts.map Prod.fst
      let posPts := pts.filter (fun p => listMax H * (9 / 10) < p.1)
      let negPts := pts.filter (fun p => p.1 < listMin H * (9 / 10))
      let msPos := if 0 < posPts.length then mean (posPts.map Prod.snd) else 0
      let msNeg := if 0 < negPts.length then mean (negPts.map (fun p => |p.2|)) else 0
      let msAvg := if msPos ≠ 0 ∧ msNeg ≠ 0 then (msPos + msNeg) / 2
                   else if msPos ≠ 0 then msPos else msNeg
      some (⟨msAvg, msPos, msNeg⟩, [])

/-- Whether the character list `p` is a leading run of `s`. -/
def startsWithChars : List Char → List Char → Bool
  | _, [] => true
  | [], _ :: _ => false
  | a :: s, b :: p => a == b && startsWithChars s p

/-- Whether the character list `p` occurs contiguously inside `s` (the Python
substring test `p in s`). -/
def containsChars : List Char → List Char → Bool
  | [], p => p.isEmpty
  | a :: s, p => startsWithChars (a :: s) p || containsChars s p

/-- The header test of file_io.find_header_row:
`"H(Oe)" in line and "M(emu)" in line`. -/
def hasMarkerTokens (line : String) : Bool :=
  containsChars line.toList "H(Oe)".toList && containsChars line.toList "M(emu)".toList

/-- The enumerate loop of find_header_row, entered with the running index `i`:
test each line for both marker tokens and return its index on the first hit;
the `if i > 100: break` test runs after the match test, so the line at index
101 is still examined. -/
def scanHeaderLines : Nat → List String → Option Nat
  | _, [] => none
  | i, l :: ls =>
    if hasMarkerTokens l then some i
    else if 100 < i then none
    else scanHeaderLines (i + 1) ls

/-- file_io.find_header_row over the ordered decode attempts (shift-jis then
utf-8): an attempt is `none` when opening/decoding raises, `some lines`
otherwise. The first attempt whose scan finds a marker line returns that
line's index; otherwise the default row 40 is returned with a printed
warning (no exception escapes). -/
def find_header_row (attempts : List (Option (List String))) : Nat :=
  match attempts with
  | [] => 40
  | none :: rest => find_header_row rest
  | some lines :: rest =>
    match scanHeaderLines 0 lines with
    | some i => i
    | none => find_header_row rest

/-- Python dict insertion `md[k] = v` for an insertion-ordered string dict:
overwrite in place when the key exists, else append. -/
def dictInsert (md : List (String × String)) (k v : String) : List (String × String) :=
  if md.any (fun p => p.1 == k) then
    md.map (fun p => if p.1 == k then (k, v) else p)
  else md ++ [(k, v)]

/-- Python str.strip(): remove leading and trailing whitespace characters. -/
def stripChars (s : List Char) : List Char :=
  ((s.dropWhile Char.isWhitespace).reverse.dropWhile Char.isWhitespace).reverse

/-- Python line.split("=", 1): the text before the first '=' paired with the
text after it, or none when the line contains no '=' (the `"=" in line`
test). -/
def splitFirstEq : List Char → Option (List Char × List Char)
  | [] => none
  | a :: s =>
    if a == '=' then some ([], s)
    else
      match splitFirstEq s with
      | none => none
      | some (k, v) => some (a :: k, v)

/-- Python value_part.split(","): cut at every occurrence of the comma. -/
def splitOnComma : List Char → List (List Char)
  | [] => [[]]
  | a :: s =>
    if a == ',' then [] :: splitOnComma s
    else
      match splitOnComma s with
      | [] => [[a]]
      | t :: ts => (a :: t) :: ts

/-- Processing of one preamble line by file_io.parse_metadata: strip the line;
skip it unless it contains "=", splitting at the first "=" into key (stripped)
and value part; the value part must begin with ","; the second comma-delimited
token (stripped) is the value; empty keys or values are skipped. A skipped
line leaves the mapping unchanged and the scan continues. -/
def parseMetaLine (md : List (String × String)) (line : String) : List (String × String) :=
  let t := stripChars line.toList
  match splitFirstEq t with
  | none => md
  | some (k, value_part) =>
    let key := stripChars k
    if startsWithChars value_part [','] then
      match splitOnComma value_part with
      | _ :: v :: _ =>
        let value := stripChars v
        if key ≠ [] ∧ value ≠ [] then
          dictInsert md (String.mk key) (String.mk value)
        else md
      | _ => md
    else md

/-- The line scan of file_io.parse_metadata under one successful decode: the
`if i > 40: break` test precedes the processing, so exactly the lines at
indices 0..40 are processed, in order, each failure-isolated. -/
def parse_metadata_lines (lines : List String) : List (String × String) :=
  (lines.take 41).foldl parseMetaLine []

/-- graph_manager lines 215–219, with a contiguous zero-based index:
`max_H_idx2 = min_H_idx + df["H(Oe)"].iloc[min_H_idx:].idxmax()`. pandas
Series.idxmax returns the index LABEL of the maximum, which on the tail
Series equals min_H_idx plus the position inside the tail; the code then adds
min_H_idx to that label once more. `df.iloc[: max_H_idx2 + 1]` clips silently
at the end of the frame. -/
def loop_slice (pts : List (ℚ × ℚ)) : List (ℚ × ℚ) :=
  let H := pts.map Prod.fst
  let min_H_idx := idxmin H
  let tail_idxmax_label := min_H_idx + idxmax (H.drop min_H_idx)
  let max_H_idx2 := min_H_idx + tail_idxmax_label
  pts.take (max_H_idx2 + 1)

/-- graph_manager line 259: `M_corrected = M_raw - H_raw * slope`, pointwise;
the field column is unchanged. -/
def slope_correct (pts : List (ℚ × ℚ)) (slope : ℚ) : List (ℚ × ℚ) :=
  pts.map (fun p => (p.1, p.2 - p.1 * slope))

/-- Offset estimate of graph_manager lines 262–273, computed on the
slope-corrected samples: Ms_pos is the mean corrected moment over
H > max(H)·0.9, Ms_neg the mean corrected moment over H < min(H)·0.9 (both
SIGNED means: the code takes no absolute value here), each defaulting to 0
when its set is empty; offset = (Ms_pos + Ms_neg) / 2. -/
def offset_estimate (pts : List (ℚ × ℚ)) : ℚ :=
  let H := pts.map Prod.fst
  let posPts := pts.filter (fun p => listMax H * (9 / 10) < p.1)
  let negPts := pts.filter (fun p => p.1 < listMin H * (9 / 10))
  let msPos := if 0 < posPts.length then mean (posPts.map Prod.snd) else 0
  let msNeg := if 0 < negPts.length then mean (negPts.map Prod.snd) else 0
  (msPos + msNeg) / 2

/-- Modelled from the spec (§4.4 read with §4.5a), for comparison with
`offset_estimate`: the same heuristic but with the negative side's estimate
the mean of the ABSOLUTE moments over its set, as the claim describes. -/
def offset_estimate_per_spec (pts : List (ℚ × ℚ)) : ℚ :=
  let H := pts.map Prod.fst
  let posPts := pts.filter (fun p => listMax H * (9 / 10) < p.1)
  let negPts := pts.filter (fun p => p.1 < listMin H * (9 / 10))
  let msPos := if 0 < posPts.length then mean (posPts.map Prod.snd) else 0
  let msNeg := if 0 < negPts.length then mean (negPts.map (fun p => |p.2|)) else 0
  (msPos + msNeg) / 2

/-- graph_manager lines 259–278: slope subtraction first; then, when offset
correction is enabled, the offset is estimated from the slope-corrected data
and subtracted uniformly from every point. -/
def apply_corrections (pts : List (ℚ × ℚ)) (slope : ℚ) (offsetEnabled : Bool) :
    List (ℚ × ℚ) :=
  let corrected := slope_correct pts slope
  if offsetEnabled then
    corrected.map (fun p => (p.1, p.2 - offset_estimate corrected))
  else corrected

/-- graph_manager lines 280–284: the descending branch, rows 0..idxmin(H)
inclusive. -/
def branch_down (pts : List (ℚ × ℚ)) : List (ℚ × ℚ) :=
  pts.take (idxmin (pts.map Prod.fst) + 1)

/-- graph_manager lines 285–288: the ascending branch, rows idxmin(H)..end
inclusive. -/
def branch_up (pts : List (ℚ × ℚ)) : List (ℚ × ℚ) :=
  pts.drop (idxmin (pts.map Prod.fst))

/-- graph_manager lines 349–355: the squareness entry of the per-file result
dictionary stays None unless Mr is not None, Ms is not None and Ms > 0, in
which case it is Mr / Ms. -/
def compute_squareness (Mr Ms : Option ℚ) : Option ℚ :=
  match Mr, Ms with
  | some mr, some ms => if 0 < ms then some (mr / ms) else none
  | _, _ => none

/-- The per-file demag_settings dictionary consumed by graph_manager lines
227–252. -/
structure DemagSettings where
  enabled : Bool
  manual : Bool
  pos_range : ℚ × ℚ
  neg_range : ℚ × ℚ

/-- What graph_manager lines 226–278 produce for one file: the slope and r²
diagnostics of the demag step and the fully corrected samples. -/
structure CorrectionOutcome where
  slope : ℚ
  r2_pos : ℚ
  r2_neg : ℚ
  M_final : List (ℚ × ℚ)

/-- graph_manager lines 226–278 for one file: the slope is 0 when no settings
are attached or correction is disabled, else comes from the manual or auto
estimator; then slope subtraction and (only if `offsetEnabled`, the
offset-correction checkbox) uniform offset subtraction are applied. -/
def process_corrections (pts : List (ℚ × ℚ)) (settings : Option DemagSettings)
    (offsetEnabled : Bool) : CorrectionOutcome :=
  let s :=
    match settings with
    | some st =>
      if st.enabled then
        if st.manual then find_demag_slope_manual pts st.pos_range st.neg_range
        else find_demag_slope_auto pts
      else (0, 0, 0)
    | none => (0, 0, 0)
  ⟨s.1, s.2.1, s.2.2, apply_corrections pts s.1 offsetEnabled⟩

/-! Concrete sample sets used to instantiate the claims. -/

/-- Ten samples, already sorted by field: five at the identical field −1 (the
negative segment, on which the regression raises), five on the exact line
M = 2H at fields 1..5 (the positive segment, slope 2, r² = 1). -/
def dataA : List (ℚ × ℚ) :=
  [(-1, 0), (-1, 1), (-1, 2), (-1, 3), (-1, 4), (1, 2), (2, 4), (3, 6), (4, 8), (5, 10)]

/-- Two samples H = ±10 with slope-corrected moments 7 and −5. -/
def dataB : List (ℚ × ℚ) := [(-10, -5), (10, 7)]

/-- A sweep with field column [1, 0, 2, 3/2]: descends to the minimum at row 1,
ascends to the maximum at row 2, then a trailing partial repeat row. -/
def dataC : List (ℚ × ℚ) := [(1, 0), (0, 0), (2, 0), (3/2, 0)]

/-- A 102-line file: 101 filler lines followed by a marker line at index 101. -/
def linesD : List String := List.replicate 101 "x" ++ ["H(Oe),M(emu)"]

/-- C1, counterexample: on `dataA` the automatic estimator's negative-side
regression raises (identical fields, slope left 0) while the positive side
fits slope 2; the claim then requires the returned slope to be 2 (the
non-zero side unchanged), but `find_demag_slope_auto` averages
unconditionally and returns (2 + 0) / 2 = 1. -/
theorem C1_counterexample :
    linregress ((sort_values dataA).take 5) = none ∧
    linregress ((sort_values dataA).drop 5) = some (2, 1) ∧
    find_demag_slope_auto dataA = (1, 1, 0) ∧ (1 : ℚ) ≠ 2 := by
  refine ⟨?_, ?_, ?_, by norm_num⟩
  · norm_num [dataA, sort_values, insertByField, linregress, listSum]
  · norm_num [dataA, sort_values, insertByField, linregress, listSum]
  · norm_num [dataA, find_demag_slope_auto, sort_values, insertByField, segmentSize,
      linregress, listSum]

/-- C2, counterexample: on the slope-corrected samples `dataB` the code's
offset is the average of the SIGNED side means, (7 + (−5)) / 2 = 1, whereas
the claim's §4.5a description (absolute mean on the negative side) gives
(7 + 5) / 2 = 6; the moments actually subtracted from differ accordingly. -/
theorem C2_counterexample :
    offset_estimate (slope_correct dataB 0) = 1 ∧
    offset_estimate_per_spec (slope_correct dataB 0) = 6 ∧
    apply_corrections dataB 0 true = [(-10, -6), (10, 6)] ∧ (1 : ℚ) ≠ 6 := by
  refine ⟨?_, ?_, ?_, by norm_num⟩
  · norm_num [dataB, offset_estimate, slope_correct, listMax, listMin, mean, listSum]
  · norm_num [dataB, offset_estimate_per_spec, slope_correct, listMax, listMin, mean, listSum]
  · norm_num [dataB, apply_corrections, offset_estimate, slope_correct, listMax, listMin,
      mean, listSum]

/-- C3: on the sweep `dataC` the global field minimum is at row 1 and the
maximum of the tail sits 1 row into the tail, so the claim's truncation to
[0, iMin + 1] would keep 3 of the 4 rows and discard the trailing partial
repeat row; the code instead computes max_H_idx2 = iMin + (iMin + 1) = 3
(pandas idxmax returns an absolute label, which the code offsets by iMin a
second time) and keeps all 4 rows. -/
theorem C3_truncation_eval :
    idxmin (dataC.map Prod.fst) = 1 ∧
    idxmax ((dataC.map Prod.fst).drop 1) = 1 ∧
    loop_slice dataC = dataC ∧
    dataC.length = 4 ∧
    dataC.take (1 + 1 + 1) ≠ dataC := by
  refine ⟨?_, ?_, ?_, by norm_num [dataC], by norm_num [dataC]⟩
  · norm_num [dataC, idxmin, listMin, List.findIdx, List.findIdx.go, cond_eq_if, beq_iff_eq]
  · norm_num [dataC, idxmax, listMax, List.findIdx, List.findIdx.go, cond_eq_if, beq_iff_eq]
  · norm_num [dataC, loop_slice, idxmin, idxmax, listMin, listMax, List.findIdx,
      List.findIdx.go, cond_eq_if, beq_iff_eq]

/-- C4, counterexample: a manual positive window capturing exactly one sample
of moment 5 yields the posFew warning but a positive-side estimate of 5, not
the 0 the claim requires. -/
theorem C4_counterexample :
    ([((1 : ℚ), (5 : ℚ)), (-1, -4), (-2, -6)].filter
      (fun p => inRange (1/2, 3/2) p.1)).length = 1 ∧
    calculate_saturation_magnetization [(1, 5), (-1, -4), (-2, -6)]
        (some (1/2, 3/2)) (some (-3, 0)) =
      some (⟨5, 5, 5⟩, [MsWarning.posFew]) ∧ (5 : ℚ) ≠ 0 := by
  refine ⟨?_, ?_, by norm_num⟩
  · norm_num [inRange]
  · norm_num [calculate_saturation_magnetization, inRange, mean, listSum]

/-- C1 (amended): the Manual estimator combines the per-side slopes by the
nonzero rule (average when both are nonzero, else whichever is nonzero, else
0) exactly as the claim states; the Auto estimator instead always returns the
arithmetic mean of the two side slopes once past its data-sufficiency guard,
so a side whose regression failed (slope left at 0) halves the other side's
slope rather than leaving it unchanged. -/
theorem C1_slope_combine (pts : List (ℚ × ℚ)) (pr nr : ℚ × ℚ) :
    ((find_demag_slope_manual pts pr nr).1 =
      (if (if 2 ≤ (pts.filter (fun p => inRange pr p.1)).length then
             (linregress (pts.filter (fun p => inRange pr p.1))).getD (0, 0)
           else (0, 0)).1 ≠ 0 ∧
          (if 2 ≤ (pts.filter (fun p => inRange nr p.1)).length then
             (linregress (pts.filter (fun p => inRange nr p.1))).getD (0, 0)
           else (0, 0)).1 ≠ 0 then
        ((if 2 ≤ (pts.filter (fun p => inRange pr p.1)).length then
             (linregress (pts.filter (fun p => inRange pr p.1))).getD (0, 0)
           else (0, 0)).1 +
         (if 2 ≤ (pts.filter (fun p => inRange nr p.1)).length then
             (linregress (pts.filter (fun p => inRange nr p.1))).getD (0, 0)
           else (0, 0)).1) / 2
      else if (if 2 ≤ (pts.filter (fun p => inRange pr p.1)).length then
             (linregress (pts.filter (fun p => inRange pr p.1))).getD (0, 0)
           else (0, 0)).1 ≠ 0 then
        (if 2 ≤ (pts.filter (fun p => inRange pr p.1)).length then
             (linregress (pts.filter (fun p => inRange pr p.1))).getD (0, 0)
           else (0, 0)).1
      else if (if 2 ≤ (pts.filter (fun p => inRange nr p.1)).length then
             (linregress (pts.filter (fun p => inRange nr p.1))).getD (0, 0)
           else (0, 0)).1 ≠ 0 then
        (if 2 ≤ (pts.filter (fun p => inRange nr p.1)).length then
             (linregress (pts.filter (fun p => inRange nr p.1))).getD (0, 0)
           else (0, 0)).1
      else 0)) ∧
    (¬ (sort_values pts).length < segmentSize (sort_values pts).length * 2 →
      (find_demag_slope_auto pts).1 =
        (((linregress ((sort_values pts).drop
            ((sort_values pts).length - segmentSize (sort_values pts).length))).getD
              (0, 0)).1 +
         ((linregress ((sort_values pts).take
            (segmentSize (sort_values pts).length))).getD (0, 0)).1) / 2) := by
  constructor
  · simp only [find_demag_slope_manual]
    split_ifs <;> rfl
  · intro h
    simp only [find_demag_slope_auto]
    rw [if_neg h]

/-- C1, witness: on `dataA`, the manual estimator with windows capturing the
nonzero positive side and the degenerate negative side returns the positive
slope 2 unchanged, while the auto estimator on the same data returns the
halved value 1 (its guard 10 < 10 is false, so the average branch runs). -/
theorem C1_slope_combine_witness :
    (find_demag_slope_manual dataA (1, 5) (-2, 0)).1 = 2 ∧
    (find_demag_slope_auto dataA).1 = 1 := by
  have h := C1_slope_combine dataA (1, 5) (-2, 0)
  constructor
  · rw [h.1]
    norm_num [dataA, inRange, linregress, listSum]
  · rw [h.2 (by norm_num [dataA, sort_values, insertByField, segmentSize])]
    norm_num [dataA, sort_values, insertByField, segmentSize, linregress, listSum]

/-- C2 (amended): with offset correction enabled, the slope is subtracted
pointwise first, and then the offset — the average (msPos + msNeg) / 2 of the
two SIGNED mean corrected moments over the 90%-of-extreme-field sets of the
slope-corrected data, each 0 when its set is empty — is subtracted uniformly
from every point; no absolute value enters the negative side's estimate. -/
theorem C2_offset_correction (pts : List (ℚ × ℚ)) (slope : ℚ) :
    apply_corrections pts slope true =
      (slope_correct pts slope).map
        (fun p => (p.1, p.2 -
          ((if 0 < ((slope_correct pts slope).filter
              (fun q => listMax ((slope_correct pts slope).map Prod.fst) * (9 / 10) <
                q.1)).length
            then mean (((slope_correct pts slope).filter
              (fun q => listMax ((slope_correct pts slope).map Prod.fst) * (9 / 10) <
                q.1)).map Prod.snd)
            else 0) +
           (if 0 < ((slope_correct pts slope).filter
              (fun q => q.1 <
                listMin ((slope_correct pts slope).map Prod.fst) * (9 / 10))).length
            then mean (((slope_correct pts slope).filter
              (fun q => q.1 <
                listMin ((slope_correct pts slope).map Prod.fst) * (9 / 10))).map Prod.snd)
            else 0)) / 2)) := by
  rfl

/-- C4 (amended): a manual Ms window never raises; a window with zero points
yields that side's estimate 0 plus a recorded warning, and a window with
exactly one point yields the recorded warning but a side estimate equal to
that single point's moment (its absolute value on the negative side), not 0. -/
theorem C4_manual_small_window (pts : List (ℚ × ℚ)) (pr nr : ℚ × ℚ) :
    ∃ v w, calculate_saturation_magnetization pts (some pr) (some nr) = some (v, w) ∧
      (pts.filter (fun p => inRange pr p.1) = [] →
        v.pos = 0 ∧ MsWarning.posFew ∈ w) ∧
      (∀ q, pts.filter (fun p => inRange pr p.1) = [q] →
        v.pos = q.2 ∧ MsWarning.posFew ∈ w) ∧
      (pts.filter (fun p => inRange nr p.1) = [] →
        v.neg = 0 ∧ MsWarning.negFew ∈ w) ∧
      (∀ q, pts.filter (fun p => inRange nr p.1) = [q] →
        v.neg = |q.2| ∧ MsWarning.negFew ∈ w) := by
  refine ⟨_, _, rfl, ?_, ?_, ?_, ?_⟩
  · intro hempty
    constructor
    · simp [hempty]
    · simp [hempty]
  · intro q heq
    constructor
    · simp [heq, mean, listSum]
    · simp [heq]
  · intro hempty
    constructor
    · simp [hempty]
    · simp [hempty]
  · intro q heq
    constructor
    · simp [heq, mean, listSum]
    · simp [heq]

/-- C4, witness: on two samples with the manual windows capturing one point
each, `C4_manual_small_window` yields a positive-side estimate equal to the
captured moment 5 together with the recorded warning. -/
theorem C4_manual_small_window_witness :
    ∃ v w, calculate_saturation_magnetization [((1 : ℚ), (5 : ℚ)), (-2, -6)]
        (some (1/2, 3/2)) (some (-3, 0)) = some (v, w) ∧
      v.pos = 5 ∧ MsWarning.posFew ∈ w := by
  obtain ⟨v, w, heq, -, hone, -, -⟩ :=
    C4_manual_small_window [((1 : ℚ), (5 : ℚ)), (-2, -6)] (1/2, 3/2) (-3, 0)
  have h := hone (1, 5) (by norm_num [inRange])
  exact ⟨v, w, heq, h.1, h.2⟩

/-- C5: for a sweep attaining its global field minimum exactly once, the
descending branch (rows 0..idxmin inclusive) and the ascending branch (rows
idxmin..end) share precisely one sample — the last of the one is the head of
the other, its field is the global minimum, the two branches reassemble the
sweep with one row of overlap, and their lengths sum to the sweep length
plus one. -/
theorem C5_branch_overlap (pts : List (ℚ × ℚ)) (h : pts ≠ [])
    (huniq : (pts.map Prod.fst).count (listMin (pts.map Prod.fst)) = 1) :
    ∃ shared : ℚ × ℚ,
      (branch_down pts).getLast? = some shared ∧
      (branch_up pts).head? = some shared ∧
      shared.1 = listMin (pts.map Prod.fst) ∧
      branch_down pts ++ (branch_up pts).drop 1 = pts ∧
      (branch_down pts).length + (branch_up pts).length = pts.length + 1 := by
  have hmem : listMin (pts.map Prod.fst) ∈ pts.map Prod.fst := by
    obtain ⟨p, rest, rfl⟩ : ∃ p rest, pts = p :: rest := by
      cases pts with
      | nil => exact absurd rfl h
      | cons p rest => exact ⟨p, rest, rfl⟩
    exact List.min?_mem min_choice
      (rfl : ((p :: rest).map Prod.fst).min? = some (listMin ((p :: rest).map Prod.fst)))
  have hi : idxmin (pts.map Prod.fst) < pts.length := by
    have hfi := (List.findIdx_lt_length
      (p := fun x => x == listMin (pts.map Prod.fst))).mpr
      ⟨listMin (pts.map Prod.fst), hmem, beq_self_eq_true _⟩
    rwa [List.length_map] at hfi
  refine ⟨pts[idxmin (pts.map Prod.fst)], ?_, ?_, ?_, ?_, ?_⟩
  · rw [branch_down, List.getLast?_eq_getElem?, List.length_take]
    have hlen : min (idxmin (pts.map Prod.fst) + 1) pts.length =
        idxmin (pts.map Prod.fst) + 1 := by omega
    rw [hlen, Nat.add_sub_cancel, List.getElem?_take, if_pos (Nat.lt_succ_self _),
      List.getElem?_eq_getElem hi]
  · rw [branch_up, List.head?_drop, List.getElem?_eq_getElem hi]
  · have hidx : idxmin (pts.map Prod.fst) < (pts.map Prod.fst).length := by
      rw [List.length_map]; exact hi
    have hmk := List.findIdx_getElem (p := fun x => x == listMin (pts.map Prod.fst))
      (w := hidx)
    rw [List.getElem_map] at hmk
    exact eq_of_beq hmk
  · rw [branch_down, branch_up, List.drop_drop, List.take_append_drop]
  · rw [branch_down, branch_up, List.length_take, List.length_drop]
    omega

/-- C5, witness: on the sweep `dataC`, whose field minimum 0 occurs exactly
once (at row 1), the two branches share exactly the sample (0, 0). -/
theorem C5_branch_overlap_witness :
    ∃ shared : ℚ × ℚ,
      (branch_down dataC).getLast? = some shared ∧
      (branch_up dataC).head? = some shared ∧
      shared.1 = listMin (dataC.map Prod.fst) ∧
      branch_down dataC ++ (branch_up dataC).drop 1 = dataC ∧
      (branch_down dataC).length + (branch_up dataC).length = dataC.length + 1 :=
  C5_branch_overlap dataC (List.length_pos.mp (by norm_num [dataC]))
    (by norm_num [dataC, listMin, List.count_cons, cond_eq_if, beq_iff_eq])

/-- C6: the squareness entry is None whenever Ms is None or Ms ≤ 0, and equals
Mr / Ms when Mr and Ms are both present and Ms is strictly positive. -/
theorem C6_squareness (Mr Ms : Option ℚ) :
    (Ms = none → compute_squareness Mr Ms = none) ∧
    (∀ ms, Ms = some ms → ms ≤ 0 → compute_squareness Mr Ms = none) ∧
    (∀ mr ms, Mr = some mr → Ms = some ms → 0 < ms →
      compute_squareness Mr Ms = some (mr / ms)) := by
  refine ⟨?_, ?_, ?_⟩
  · rintro rfl
    cases Mr <;> rfl
  · rintro ms rfl hle
    cases Mr with
    | none => rfl
    | some mr => simp [compute_squareness, not_lt.mpr hle]
  · rintro mr ms rfl rfl hpos
    simp [compute_squareness, hpos]

/-- C6, witness: the three cases of `C6_squareness` evaluated at concrete
inputs. -/
theorem C6_squareness_witness :
    compute_squareness (some 3) none = none ∧
    compute_squareness (some 3) (some 0) = none ∧
    compute_squareness (some 3) (some 6) = some (3 / 6) := by
  refine ⟨(C6_squareness (some 3) none).1 rfl,
    (C6_squareness (some 3) (some 0)).2.1 0 rfl (by norm_num),
    (C6_squareness (some 3) (some 6)).2.2 3 6 rfl rfl (by norm_num)⟩

/-- C7: for fixed raw samples and demag settings, toggling the offset
correction checkbox does not change the computed diamagnetic slope (or the r²
diagnostics): the slope is computed, before the offset branch, from the raw
data and the settings alone. -/
theorem C7_offset_toggle_slope (pts : List (ℚ × ℚ)) (settings : Option DemagSettings) :
    (process_corrections pts settings true).slope =
      (process_corrections pts settings false).slope ∧
    (process_corrections pts settings true).r2_pos =
      (process_corrections pts settings false).r2_pos ∧
    (process_corrections pts settings true).r2_neg =
      (process_corrections pts settings false).r2_neg := by
  refine ⟨rfl, rfl, rfl⟩

/-- C10: calculate_saturation_magnetization follows the manual window policy
only when both windows are supplied; with exactly one window supplied it
computes exactly what the fully-automatic call computes. -/
theorem C10_manual_requires_both (pts : List (ℚ × ℚ)) (r : ℚ × ℚ) :
    calculate_saturation_magnetization pts (some r) none =
      calculate_saturation_magnetization pts none none ∧
    calculate_saturation_magnetization pts none (some r) =
      calculate_saturation_magnetization pts none none := by
  refine ⟨rfl, rfl⟩

/-- Soundness of the header-line scan: a hit starting from running index `i`
returns an index between `i` and max i 101, the hit line carries both marker
tokens, and every line scanned before it does not. -/
theorem scanHeaderLines_sound (lines : List String) : ∀ i j,
    scanHeaderLines i lines = some j →
      i ≤ j ∧ j ≤ max i 101 ∧
      (∃ l, lines.get? (j - i) = some l ∧ hasMarkerTokens l = true) ∧
      ∀ k l2, k < j - i → lines.get? k = some l2 → hasMarkerTokens l2 = false := by
  induction lines with
  | nil =>
    intro i j hsc
    simp [scanHeaderLines] at hsc
  | cons a ls ih =>
    intro i j hsc
    by_cases hm : hasMarkerTokens a
    · rw [scanHeaderLines, if_pos hm] at hsc
      obtain rfl : i = j := by simpa using hsc
      refine ⟨le_refl i, le_max_left i 101, ⟨a, by simp, hm⟩, ?_⟩
      intro k l2 hk
      omega
    · rw [scanHeaderLines, if_neg hm] at hsc
      by_cases hbig : 100 < i
      · rw [if_pos hbig] at hsc
        exact absurd hsc (by simp)
      · rw [if_neg hbig] at hsc
        obtain ⟨h1, h2, ⟨l, hget, hl⟩, hearly⟩ := ih (i + 1) j hsc
        have hji : i + 1 ≤ j := h1
        refine ⟨by omega, by omega, ?_, ?_⟩
        · refine ⟨l, ?_, hl⟩
          have hd : j - i = (j - (i + 1)) + 1 := by omega
          rw [hd]
          simpa using hget
        · intro k l2 hk hget2
          cases k with
          | zero =>
            obtain rfl : a = l2 := by simpa using hget2
            exact Bool.eq_false_iff.mpr hm
          | succ k2 =>
            refine hearly k2 l2 (by omega) ?_
            simpa using hget2

/-- C8 (amended): per decode attempt the header scan examines up to 102 lines
(indices 0 through 101 — the `i > 100` break fires only after the line at
index 101 has been tested); the first scanned line containing both marker
tokens gives its 0-indexed row and every earlier line lacks them; an attempt
that fails to open/decode, or whose scan misses, falls through to the next
attempt; exhausting all attempts returns the fixed default row 40 with a
non-fatal warning instead of raising. -/
theorem C8_header_scan :
    (∀ lines j, scanHeaderLines 0 lines = some j →
      j ≤ 101 ∧ (∃ l, lines.get? j = some l ∧ hasMarkerTokens l = true) ∧
      ∀ k l2, k < j → lines.get? k = some l2 → hasMarkerTokens l2 = false) ∧
    (∀ lines rest j, scanHeaderLines 0 lines = some j →
      find_header_row (some lines :: rest) = j) ∧
    (∀ lines rest, scanHeaderLines 0 lines = none →
      find_header_row (some lines :: rest) = find_header_row rest) ∧
    (∀ rest, find_header_row (none :: rest) = find_header_row rest) ∧
    find_header_row [] = 40 := by
  refine ⟨?_, ?_, ?_, fun rest => rfl, rfl⟩
  · intro lines j hsc
    obtain ⟨-, h2, h3, h4⟩ := scanHeaderLines_sound lines 0 j hsc
    exact ⟨by simpa using h2, by simpa using h3, by simpa using h4⟩
  · intro lines rest j hsc
    simp [find_header_row, hsc]
  · intro lines rest hsc
    simp [find_header_row, hsc]

/-- C8, witness: a file whose second line carries both markers is detected at
row 1, within the amended scan bound. -/
theorem C8_header_scan_witness :
    find_header_row [some ["a", "H(Oe),M(emu)"]] = 1 ∧ (1 : Nat) ≤ 101 := by
  have hs : scanHeaderLines 0 ["a", "H(Oe),M(emu)"] = some 1 := rfl
  exact ⟨C8_header_scan.2.1 ["a", "H(Oe),M(emu)"] [] 1 hs,
    (C8_header_scan.1 ["a", "H(Oe),M(emu)"] 1 hs).1⟩

/-- C8, counterexample: `linesD` has no marker pair in its first 101 lines and
a marker line at index 101. A scan of at most 100 lines would miss it and
fall back to the default row 40, but find_header_row still examines index 101
and returns 101. -/
theorem C8_counterexample :
    (linesD.take 101).all (fun l => !(hasMarkerTokens l)) = true ∧
    find_header_row [some linesD] = 101 ∧ (101 : Nat) ≠ 40 := by
  exact ⟨rfl, rfl, by decide⟩

/-- C9: the preamble line `Sample Name=,Foo-1,unit` yields exactly the entry
("Sample Name", "Foo-1"); any line whose text after the first '=' does not
begin with the ',' separator is skipped — the mapping is left unchanged, no
exception is raised, and the scan of the later lines proceeds as if the line
were absent. -/
theorem C9_metadata (md : List (String × String)) (line : String)
    (h : ∀ kv, splitFirstEq (stripChars line.toList) = some kv →
      startsWithChars kv.2 [','] = false) :
    parse_metadata_lines ["Sample Name=,Foo-1,unit"] = [("Sample Name", "Foo-1")] ∧
    parseMetaLine md line = md ∧
    ∀ rest, parse_metadata_lines (line :: rest) =
      (rest.take 40).foldl parseMetaLine [] := by
  have hskip : ∀ md0 : List (String × String), parseMetaLine md0 line = md0 := by
    intro md0
    rw [parseMetaLine]
    cases hsplit : splitFirstEq (stripChars line.toList) with
    | none => rfl
    | some kv =>
      obtain ⟨k, v⟩ := kv
      simp [h (k, v) hsplit]
  refine ⟨rfl, hskip md, ?_⟩
  intro rest
  have hstep : parse_metadata_lines (line :: rest) =
      (rest.take 40).foldl parseMetaLine (parseMetaLine [] line) := rfl
  rw [hstep, hskip]

/-- C9, witness: the mapping of the well-formed line, the skip of the line
`Bad=value` (whose text after '=' has no leading comma), and the survival of
the scan past the skipped line. -/
theorem C9_metadata_witness :
    parse_metadata_lines ["Sample Name=,Foo-1,unit"] = [("Sample Name", "Foo-1")] ∧
    parseMetaLine [] "Bad=value" = [] ∧
    parse_metadata_lines ["Bad=value", "Sample Name=,Foo-1,unit"] =
      [("Sample Name", "Foo-1")] := by
  have h := C9_metadata [] "Bad=value" (by intro kv hkv; cases hkv; rfl)
  refine ⟨h.1, h.2.1, ?_⟩
  rw [h.2.2 ["Sample Name=,Foo-1,unit"]]
  exact h.1

end VSM
